import Mathlib

/-!
Shallow embedding of the iterative CCA solver framework of this repository
(`cca_zoo/models/_iterative/_elastic.py` and `cca_zoo/models/_iterative/_spancca.py`),
with theorems checking the natural-language specification against the code.

Machine floating point is idealised as real arithmetic.  Vectors are lists of
reals, matrices are lists of row vectors.  The per-view regression sub-solvers
(scikit-learn estimators) are external to the repository and are modelled as
abstract functions from a design matrix and a target to a weight vector; the
code of this repository that calls them is embedded faithfully.
-/

namespace CCAZoo

noncomputable section

/-- A vector: a list of real entries. -/
abbrev Vec := List ℝ

/-- A matrix: a list of row vectors. -/
abbrev Mat := List Vec

/-- Dot product of two vectors (entrywise product, summed). -/
def dot (x y : Vec) : ℝ := (List.zipWith (fun a b => a * b) x y).sum

/-- Matrix-vector product `A @ w`: one dot product per row. -/
def matVec (A : Mat) (w : Vec) : Vec := A.map (fun r => dot r w)

/-- Entrywise vector subtraction. -/
def vsub (x y : Vec) : Vec := List.zipWith (fun a b => a - b) x y

/-- Entrywise vector addition. -/
def vadd (x y : Vec) : Vec := List.zipWith (fun a b => a + b) x y

/-- Scalar multiple of a vector. -/
def smulV (c : ℝ) (x : Vec) : Vec := x.map (fun a => c * a)

/-- Sum of squares of the entries of a vector. -/
def sumSq (x : Vec) : ℝ := (x.map (fun a => a ^ 2)).sum

/-- Euclidean norm `np.linalg.norm(x)`. -/
noncomputable def norm2 (x : Vec) : ℝ := Real.sqrt (sumSq x)

/-- One-norm `np.linalg.norm(x, ord=1)`. -/
def norm1 (x : Vec) : ℝ := (x.map (fun a => |a|)).sum

/-- Sum of a list of vectors of a common length. -/
def vsum : List Vec → Vec
  | [] => []
  | [x] => x
  | x :: xs => vadd x (vsum xs)

/-- `scores.mean(axis=0)`: the entrywise mean of a list of vectors. -/
def meanVec (ss : List Vec) : Vec := smulV (1 / (ss.length : ℝ)) (vsum ss)

/-- `target /= np.linalg.norm(target) / np.sqrt(n)`: rescale a vector so that
its Euclidean norm becomes `sqrt n` (real-arithmetic idealisation; a zero
vector stays zero since Lean division by zero yields zero). -/
noncomputable def rescaleToSqrtN (n : ℕ) (v : Vec) : Vec :=
  smulV (Real.sqrt n / norm2 v) v

/-- Error taxonomy of the spec: configuration errors raised during parameter
checking and degenerate (all-zero) sub-solver weights. -/
inductive Err where
  | configurationError (msg : String)
  | degenerateWeights (viewIndex : ℕ)
deriving DecidableEq, Repr


open Classical

/-- `scores[view_index - 1]` with numpy semantics: for view 0 the index `-1`
selects the last view's score (round robin); otherwise the previous view's. -/
def sumcorTarget (scores : List Vec) (i : ℕ) : Vec :=
  if i = 0 then scores.getD (scores.length - 1) [] else scores.getD (i - 1) []

/-- The per-dimension solver state of the inner loop: one score vector and one
weight vector per view. -/
structure UpdateState where
  scores : List Vec
  weights : List Vec

/-- Modelled from the spec: `_check_converged_weights` (imported from
`cca_zoo.utils`, which is not under src/) — the spec says the implementation
"must detect zero-norm weights and fail that dimension's fit with a
`DegenerateWeightsError` naming the offending view".  A vector has zero norm
exactly when its sum of squares is zero. -/
def checkConvergedWeights (w : Vec) (viewIndex : ℕ) : Except Err Unit :=
  if sumSq w = 0 then .error (.degenerateWeights viewIndex) else .ok ()

/-- The body of `ElasticCCA._update` for one `view_index`.  `solver i X y`
models `self.regressors[i].fit(X, y.ravel()).coef_` (the external scikit-learn
estimator, abstracted).  MAXVAR: target is the mean of the current scores
rescaled to norm `sqrt n`.  SUMCOR: target is `scores[view_index - 1]`, the
returned weights are checked for degeneracy and rescaled so the projection has
norm `sqrt n`.  Finally the view's score is recomputed as `view @ weight`. -/
def elasticUpdateStep (maxvar : Bool) (n : ℕ) (solver : ℕ → Mat → Vec → Vec)
    (views : List Mat) (st : UpdateState) (i : ℕ) : Except Err UpdateState :=
  let view := views.getD i []
  let target := if maxvar then rescaleToSqrtN n (meanVec st.scores)
                else sumcorTarget st.scores i
  let w := solver i view target
  if maxvar then
    .ok ⟨st.scores.set i (matVec view w), st.weights.set i w⟩
  else
    match checkConvergedWeights w i with
    | .error e => .error e
    | .ok _ =>
      let w2 := smulV (Real.sqrt n / norm2 (matVec view w)) w
      .ok ⟨st.scores.set i (matVec view w2), st.weights.set i w2⟩

/-- `ElasticCCA._update`: one full sweep over the views, in view order
(Gauss-Seidel: later views see earlier views' updated scores). -/
def elasticSweep (maxvar : Bool) (n : ℕ) (solver : ℕ → Mat → Vec → Vec)
    (views : List Mat) (st : UpdateState) : Except Err UpdateState :=
  List.foldlM (elasticUpdateStep maxvar n solver views) st (List.range views.length)

/-- One summand of `ElasticCCA._objective` for view `i` with target `t`:
`norm(view @ weight - t)**2 / (2n) + l1[i]*norm1(weight) + l2[i]*norm2(weight)`
with `l1 = c*l1_ratio` and `l2 = c*(1 - l1_ratio)` (second argument is the
per-view l1 mixing ratio list). -/
def objTerm (n : ℕ) (cs l1rs : List ℝ) (views : List Mat) (weights : List Vec)
    (i : ℕ) (t : Vec) : ℝ :=
  (norm2 (vsub (matVec (views.getD i []) (weights.getD i [])) t)) ^ 2 / (2 * n)
    + (cs.getD i 0 * l1rs.getD i 0) * norm1 (weights.getD i [])
    + (cs.getD i 0 * (1 - l1rs.getD i 0)) * norm2 (weights.getD i [])

/-- `ElasticCCA._objective`: `target` is the mean of the scores, computed once
before the loop; inside the loop it is rescaled in place to norm `sqrt n` when
`maxvar` (and left untouched otherwise), then the penalized residual for view
`i` is accumulated.  The in-place mutation of `target` is made explicit by
folding the pair (current target, running total) over the view indices. -/
def elasticObjective (maxvar : Bool) (n : ℕ) (cs l1rs : List ℝ)
    (views : List Mat) (weights scores : List Vec) : ℝ :=
  ((List.range views.length).foldl
    (fun (p : Vec × ℝ) i =>
      let t := if maxvar then rescaleToSqrtN n p.1 else p.1
      (t, p.2 + objTerm n cs l1rs views weights i t))
    (meanVec scores, 0)).2

/-- The objective as claim C1 states it: the target of view `i` is the mean of
the scores rescaled to norm `sqrt n` in MAXVAR mode, and the previous view's
score `scores[i-1]` in SUMCOR mode. -/
def claimC1Objective (maxvar : Bool) (n : ℕ) (cs l1rs : List ℝ)
    (views : List Mat) (weights scores : List Vec) : ℝ :=
  ((List.range views.length).map (fun i =>
    objTerm n cs l1rs views weights i
      (if maxvar then rescaleToSqrtN n (meanVec scores) else sumcorTarget scores i))).sum

/-- The objective with the target the code actually uses: the mean of the
scores, rescaled to norm `sqrt n` in MAXVAR mode and unrescaled in SUMCOR
mode, the same target for every view. -/
def amendedC1Objective (maxvar : Bool) (n : ℕ) (cs l1rs : List ℝ)
    (views : List Mat) (weights scores : List Vec) : ℝ :=
  ((List.range views.length).map (fun i =>
    objTerm n cs l1rs views weights i
      (if maxvar then rescaleToSqrtN n (meanVec scores) else meanVec scores))).sum

/-- Abstract description of the scikit-learn estimator that
`initialize_regressors` constructs for one view: the estimator kind and the
constructor arguments that determine its behaviour (`fit_intercept=False`,
`warm_start=True` and the random state are fixed at every call site and are
not recorded). -/
inductive Regressor where
  | sgd (alpha l1r tol : ℝ)
  | ridge (alpha : ℝ) (pos : Bool)
  | elasticNet (alpha l1r : ℝ) (pos : Bool)

/-- Whether the estimator is the stochastic (SGD) one. -/
def Regressor.isStochastic : Regressor → Bool
  | .sgd _ _ _ => true
  | _ => false

/-- The branch of `initialize_regressors` for one view: SGD when `stochastic`;
otherwise `Ridge(alpha=tol, positive=positive)` when `alpha == 0`, else
`ElasticNet(alpha=alpha, l1_ratio=l1_ratio, positive=positive)`. -/
def mkRegressor (stochastic : Bool) (tol : ℝ) (alpha l1r : ℝ) (pos : Bool) :
    Regressor :=
  if stochastic then .sgd alpha l1r tol
  else if alpha = 0 then .ridge tol pos
  else .elasticNet alpha l1r pos

/-- `initialize_regressors`: zips the per-view `c`/`alpha`, `l1_ratio` and
`positive` lists and builds one estimator per view. -/
def initializeRegressors (cs l1rs : List ℝ) (poss : List Bool)
    (stochastic : Bool) (tol : ℝ) : List Regressor :=
  List.zipWith3 (mkRegressor stochastic tol) cs l1rs poss

/-- A hyperparameter as passed at construction: Python `None`, a scalar, or a
sequence. -/
inductive ParamInput (α : Type) where
  | none
  | scalar (a : α)
  | seq (l : List α)
deriving DecidableEq

/-- Modelled from the spec: `_process_parameter` (imported from
`cca_zoo.utils`, which is not under src/).  The spec's contract: "`None` →
array filled with default.  Scalar → broadcast to all views.  Sequence →
validated to have length `n_views`, else fails with a `ConfigurationError`
(length must equal number of views)". -/
def processParameter {α : Type} (name : String) (v : ParamInput α) (d : α)
    (n : ℕ) : Except Err (List α) :=
  match v with
  | .none => .ok (List.replicate n d)
  | .scalar a => .ok (List.replicate n a)
  | .seq l => if l.length = n then .ok l else .error (.configurationError name)

/-- `ElasticCCA._check_params`: processes `c` (default 0), `l1_ratio`
(default 0) and `positive` (default False), each to length `n_views`. -/
def elasticCheckParams (cIn l1In : ParamInput ℝ) (posIn : ParamInput Bool)
    (n : ℕ) : Except Err (List ℝ × List ℝ × List Bool) := do
  let cs ← processParameter "c" cIn 0 n
  let l1rs ← processParameter "l1_ratio" l1In 0 n
  let poss ← processParameter "positive" posIn false n
  return (cs, l1rs, poss)

/-- `SCCA_IPLS._check_params`: processes `tau` (default 0), `l1_ratio`
(default 0) and `positive` (default False).  The class passes `l1_ratio=1` to
the parent constructor, so the `l1_ratio` input is always the scalar 1. -/
def iplsCheckParams (tauIn l1In : ParamInput ℝ) (posIn : ParamInput Bool)
    (n : ℕ) : Except Err (List ℝ × List ℝ × List Bool) := do
  let taus ← processParameter "tau" tauIn 0 n
  let l1rs ← processParameter "l1_ratio" l1In 0 n
  let poss ← processParameter "positive" posIn false n
  return (taus, l1rs, poss)

/-- The stochastic-coercion in `ElasticCCA.__init__`: when `positive` is not
`None` and `stochastic` is set, `stochastic` is silently reset to `False` and
a warning is emitted.  Returns (effective stochastic flag, warning emitted). -/
def elasticInitEff (posIn : ParamInput Bool) (stochastic : Bool) :
    Bool × Bool :=
  match posIn with
  | .none => (stochastic, false)
  | _ => if stochastic then (false, true) else (stochastic, false)

/-- Everything that determines the numerical fit of an `ElasticCCA` model
after `_check_params` and `_initialize`: the per-view estimators, the
MAXVAR/SUMCOR flag and the `c`/`l1_ratio` lists consumed by `_update` and
`_objective`. -/
structure FitEngine where
  regressors : List Regressor
  maxvar : Bool
  cs : List ℝ
  l1rs : List ℝ

/-- `ElasticCCA`: `__init__` stochastic coercion, `_check_params`, then
`_initialize` building the estimators from `c`. -/
def elasticEngine (cIn l1In : ParamInput ℝ) (posIn : ParamInput Bool)
    (maxvar stochastic : Bool) (tol : ℝ) (n : ℕ) : Except Err FitEngine := do
  let eff := (elasticInitEff posIn stochastic).1
  let (cs, l1rs, poss) ← elasticCheckParams cIn l1In posIn n
  return ⟨initializeRegressors cs l1rs poss eff tol, maxvar, cs, l1rs⟩

/-- `SCCA_IPLS`: same pipeline, with `_check_params` processing `tau`,
`l1_ratio` fixed to the scalar 1 by the constructor, and `_initialize`
building the estimators from `tau` and then setting `self.c = self.tau`. -/
def iplsEngine (tauIn : ParamInput ℝ) (posIn : ParamInput Bool)
    (maxvar stochastic : Bool) (tol : ℝ) (n : ℕ) : Except Err FitEngine := do
  let eff := (elasticInitEff posIn stochastic).1
  let (taus, l1rs, poss) ← iplsCheckParams tauIn (.scalar 1) posIn n
  return ⟨initializeRegressors taus l1rs poss eff tol, maxvar, taus, l1rs⟩

/-- Entrywise division of a vector by a scalar (`v /= s`). -/
def divScalar (v : Vec) (s : ℝ) : Vec := v.map (fun a => a / s)

/-- `(np.diag d) @ x`: multiplication by a diagonal matrix, i.e. the
entrywise product. -/
def diagMulVec (d x : Vec) : Vec := List.zipWith (fun a b => a * b) d x

/-- `A.T @ x`: the linear combination of the rows of `A` with coefficients
`x`. -/
def matTVec (A : Mat) (x : Vec) : Vec :=
  (List.zipWith smulV x A).foldr vadd (List.replicate (A.headD []).length 0)

/-- The state mutated by the span-search trials: the incumbent objective
`max_obj` and the best weights and scores found so far (two views). -/
structure SpanState where
  maxObj : ℝ
  w0 : Vec
  w1 : Vec
  s0 : Vec
  s1 : Vec

/-- `_SpanCCAInnerLoop._inner_iteration`: one randomized trial.  `rnd` models
the Gaussian draw `self.random_state.randn(self.rank)`; `update` is the
threshold function chosen by `SCCA_Span._check_params` (`support_threshold`
for "l0", `_delta_search` for "l1" — both live in
`cca_zoo.models._iterative.utils`, outside src/, and are kept abstract);
`c0, c1` are `self.c[0], self.c[1]`; `P, D, Q` the stored SVD factors;
`X0, X1` the two views. -/
def spanIteration (update : Vec → ℝ → Vec) (c0 c1 : ℝ) (P : Mat) (D : Vec)
    (Q : Mat) (X0 X1 : Mat) (rnd : Vec) (st : SpanState) : SpanState :=
  let c := divScalar rnd (norm2 rnd)
  let a := matVec P (diagMulVec D c)
  let u0 := update a c0
  let u := divScalar u0 (norm2 u0)
  let b := matVec Q (diagMulVec D (matTVec P u))
  let v0 := update b c1
  let v := divScalar v0 (norm2 v0)
  if dot b v > st.maxObj then ⟨dot b v, u, v, matVec X0 u, matVec X1 v⟩ else st

/-- The candidate `u` of one trial, as claim C4 states it: normalize the raw
draw, form `a = P @ diag(D) @ c`, threshold with parameter `c[0]`, normalize. -/
def spanU (update : Vec → ℝ → Vec) (c0 : ℝ) (P : Mat) (D : Vec) (rnd : Vec) :
    Vec :=
  let u0 := update (matVec P (diagMulVec D (divScalar rnd (norm2 rnd)))) c0
  divScalar u0 (norm2 u0)

/-- The vector `b = Q @ diag(D) @ P.T @ u` of one trial, per claim C4. -/
def spanB (update : Vec → ℝ → Vec) (c0 : ℝ) (P : Mat) (D : Vec) (Q : Mat)
    (rnd : Vec) : Vec :=
  matVec Q (diagMulVec D (matTVec P (spanU update c0 P D rnd)))

/-- The candidate `v` of one trial, per claim C4: threshold `b` with parameter
`c[1]`, normalize. -/
def spanV (update : Vec → ℝ → Vec) (c0 c1 : ℝ) (P : Mat) (D : Vec) (Q : Mat)
    (rnd : Vec) : Vec :=
  let v0 := update (spanB update c0 P D Q rnd) c1
  divScalar v0 (norm2 v0)

/-- The trial objective `b.T @ v`, per claim C4. -/
def spanTrialObj (update : Vec → ℝ → Vec) (c0 c1 : ℝ) (P : Mat) (D : Vec)
    (Q : Mat) (rnd : Vec) : ℝ :=
  dot (spanB update c0 P D Q rnd) (spanV update c0 c1 P D Q rnd)

/-- `_SpanCCAInnerLoop._initialize` sets `self.max_obj = 0`; the weights and
scores fields start from the initialization strategy's values. -/
def spanInitState (w0 w1 s0 s1 : Vec) : SpanState := ⟨0, w0, w1, s0, s1⟩

/-- Modelled from the spec: the trial-loop driver (`_BaseInnerLoop._fit` in
`_base.py`, which is not under src/) — the spec says the span search "runs for
exactly `max_iter` randomized trials (no early convergence check)".  `draws t`
is the Gaussian draw of trial `t`. -/
def spanRun (update : Vec → ℝ → Vec) (c0 c1 : ℝ) (P : Mat) (D : Vec) (Q : Mat)
    (X0 X1 : Mat) (draws : ℕ → Vec) (k : ℕ) (st : SpanState) : SpanState :=
  (List.range k).foldl
    (fun s t => spanIteration update c0 c1 P D Q X0 X1 (draws t) s) st

/-- `SCCA_Span._check_params`: raises `ValueError("SCCA_Span requires only 2
views")` (the spec's `ConfigurationError` taxon) unless exactly 2 views are
given; then processes `c` (default 0) when `regularisation` is "l0" or "l1"
(an unrecognized value leaves `c` unprocessed, returned as `Option.none`
here) and processes `positive` (default False). -/
def spanCheckParams (nViews : ℕ) (reg : String) (cIn : ParamInput ℝ)
    (posIn : ParamInput Bool) : Except Err (Option (List ℝ) × List Bool) :=
  if nViews ≠ 2 then
    .error (.configurationError "SCCA_Span requires only 2 views")
  else
    (if reg = "l0" ∨ reg = "l1" then
        (Option.some <$> processParameter "c" cIn 0 nViews)
      else pure Option.none) >>= fun cs =>
    processParameter "positive" posIn false nViews >>= fun poss =>
    pure (cs, poss)

/-- Modelled from the spec: the fit orchestration (`_BaseIterative.fit` in
`_base.py`, not under src/) — the spec says a `ConfigurationError` "fails fast
before any numerical work".  `numeric` abstracts the SVD initialization and
the randomized trials; the pipeline consults it only after parameter checking
succeeds. -/
def spanFitPipeline {β : Type} (nViews : ℕ) (reg : String) (cIn : ParamInput ℝ)
    (posIn : ParamInput Bool) (numeric : Option (List ℝ) × List Bool → β) :
    Except Err β := do
  let p ← spanCheckParams nViews reg cIn posIn
  return numeric p

section Lemmas

lemma sumSq_nonneg (x : Vec) : 0 ≤ sumSq x := by
  unfold sumSq
  induction x with
  | nil => simp
  | cons a xs ih => simp only [List.map_cons, List.sum_cons]; positivity

lemma sq_norm2 (x : Vec) : (norm2 x) ^ 2 = sumSq x := by
  unfold norm2
  exact Real.sq_sqrt (sumSq_nonneg x)

lemma norm2_nonneg (x : Vec) : 0 ≤ norm2 x := Real.sqrt_nonneg _

lemma sumSq_smulV (c : ℝ) (x : Vec) : sumSq (smulV c x) = c ^ 2 * sumSq x := by
  unfold sumSq smulV
  induction x with
  | nil => simp
  | cons a xs ih => simp only [List.map_cons, List.sum_cons, ih]; ring

lemma norm2_smulV (c : ℝ) (x : Vec) : norm2 (smulV c x) = |c| * norm2 x := by
  unfold norm2
  rw [sumSq_smulV, Real.sqrt_mul (sq_nonneg c), Real.sqrt_sq_eq_abs]

lemma smulV_smulV (c d : ℝ) (x : Vec) : smulV c (smulV d x) = smulV (c * d) x := by
  unfold smulV
  rw [List.map_map]
  exact List.map_congr_left (fun a _ => by simp [mul_assoc])

lemma smulV_one (x : Vec) : smulV 1 x = x := by
  unfold smulV
  simp

lemma dot_smulV (r w : Vec) (c : ℝ) : dot r (smulV c w) = c * dot r w := by
  unfold dot smulV
  induction r generalizing w with
  | nil => simp
  | cons a rs ih =>
    cases w with
    | nil => simp
    | cons b ws =>
      simp only [List.map_cons, List.zipWith_cons_cons, List.sum_cons, ih ws]
      ring

lemma matVec_smulV (A : Mat) (c : ℝ) (w : Vec) :
    matVec A (smulV c w) = smulV c (matVec A w) := by
  unfold matVec smulV
  rw [List.map_map]
  exact List.map_congr_left (fun r _ => dot_smulV r w c)

/-- Rescaling to norm `sqrt n` is idempotent in exact real arithmetic. -/
lemma rescale_idem (n : ℕ) (v : Vec) :
    rescaleToSqrtN n (rescaleToSqrtN n v) = rescaleToSqrtN n v := by
  unfold rescaleToSqrtN
  by_cases hv : norm2 v = 0
  · rw [hv]
    simp only [div_zero]
    rw [smulV_smulV, mul_zero]
  · by_cases hn : Real.sqrt n = 0
    · rw [hn]
      simp only [zero_div]
      rw [smulV_smulV, mul_zero]
    · have hk : |Real.sqrt n / norm2 v| = Real.sqrt n / norm2 v := by
        rw [abs_of_nonneg]
        exact div_nonneg (Real.sqrt_nonneg _) (norm2_nonneg v)
      rw [norm2_smulV, hk]
      have hnv : norm2 v ≠ 0 := hv
      have : Real.sqrt n / norm2 v * norm2 v = Real.sqrt n := by
        field_simp
      rw [this, div_self hn, smulV_one]

lemma exceptBind_ok {α β : Type} (a : α) (f : α → Except Err β) :
    (Except.ok a >>= f) = f a := rfl

lemma exceptBind_error {α β : Type} (e : Err) (f : α → Except Err β) :
    ((Except.error e : Except Err α) >>= f) = Except.error e := rfl

lemma exceptMap_ok {α β : Type} (a : α) (f : α → β) :
    (f <$> (Except.ok a : Except Err α)) = Except.ok (f a) := rfl

lemma exceptMap_error {α β : Type} (e : Err) (f : α → β) :
    (f <$> (Except.error e : Except Err α)) = Except.error e := rfl

lemma mkRegressor_batch_not_sgd (tol alpha l1r : ℝ) (pos : Bool) :
    (mkRegressor false tol alpha l1r pos).isStochastic = false := by
  unfold mkRegressor
  simp only [Bool.false_eq_true, if_false]
  split <;> rfl

lemma mem_initializeRegressors_batch (tol : ℝ) :
    ∀ (cs l1rs : List ℝ) (poss : List Bool) (r : Regressor),
      r ∈ initializeRegressors cs l1rs poss false tol →
      r.isStochastic = false := by
  intro cs
  induction cs with
  | nil => intro l1rs poss r hr; simp [initializeRegressors, List.zipWith3] at hr
  | cons a as ih =>
    intro l1rs poss r hr
    cases l1rs with
    | nil => simp [initializeRegressors, List.zipWith3] at hr
    | cons b bs =>
      cases poss with
      | nil => simp [initializeRegressors, List.zipWith3] at hr
      | cons p ps =>
        simp only [initializeRegressors, List.zipWith3, List.mem_cons] at hr
        rcases hr with h | h
        · rw [h]; exact mkRegressor_batch_not_sgd tol a b p
        · exact ih bs ps r h

end Lemmas

/-- C4: one randomized trial of the SCCA_Span inner loop performs exactly the
claimed computation: normalize the Gaussian draw to a unit vector `c`, form
`a = P @ diag(D) @ c`, threshold with parameter `c[0]` and normalize to get
`u`, form `b = Q @ diag(D) @ P.T @ u`, threshold with parameter `c[1]` and
normalize to get `v`, compute the trial objective `b.T @ v`, and replace the
incumbent objective, weights `(u, v)` and scores if and only if the trial
objective strictly exceeds the current `max_obj` (otherwise the state is
unchanged). -/
theorem spanIteration_eq_claimed (update : Vec → ℝ → Vec) (c0 c1 : ℝ)
    (P : Mat) (D : Vec) (Q : Mat) (X0 X1 : Mat) (rnd : Vec) (st : SpanState) :
    spanIteration update c0 c1 P D Q X0 X1 rnd st =
      if spanTrialObj update c0 c1 P D Q rnd > st.maxObj then
        ⟨spanTrialObj update c0 c1 P D Q rnd,
         spanU update c0 P D rnd,
         spanV update c0 c1 P D Q rnd,
         matVec X0 (spanU update c0 P D rnd),
         matVec X1 (spanV update c0 c1 P D Q rnd)⟩
      else st := rfl

/-- C10: constructing ElasticCCA (or SCCA_IPLS, which shares the constructor)
with `stochastic=True` together with a non-None `positive` constraint does not
raise: `stochastic` is coerced to `False`, a warning is emitted, and every
estimator subsequently built by `initialize_regressors` with the effective
flag is a batch (non-SGD) estimator. -/
theorem stochastic_positive_coercion (posIn : ParamInput Bool)
    (h : posIn ≠ ParamInput.none) :
    elasticInitEff posIn true = (false, true) ∧
    ∀ (cs l1rs : List ℝ) (poss : List Bool) (tol : ℝ) (r : Regressor),
      r ∈ initializeRegressors cs l1rs poss (elasticInitEff posIn true).1 tol →
      r.isStochastic = false := by
  have h1 : elasticInitEff posIn true = (false, true) := by
    cases posIn with
    | none => exact absurd rfl h
    | scalar a => rfl
    | seq l => rfl
  refine ⟨h1, ?_⟩
  intro cs l1rs poss tol r hr
  rw [h1] at hr
  exact mem_initializeRegressors_batch tol cs l1rs poss r hr

/-- Witness for C10 at a concrete input: `positive` the scalar True,
`stochastic=True`, one view with `c=1/2`, `l1_ratio=1/2`. -/
theorem stochastic_positive_coercion_witness :
    elasticInitEff (ParamInput.scalar true) true = (false, true) ∧
    ∀ r ∈ initializeRegressors [1/2] [1/2] [true]
        (elasticInitEff (ParamInput.scalar true) true).1 (1/10),
      r.isStochastic = false := by
  have h := stochastic_positive_coercion (ParamInput.scalar true) (by intro h; cases h)
  exact ⟨h.1, fun r hr => h.2 [1/2] [1/2] [true] (1/10) r hr⟩

/-- C7: parameter normalization in `ElasticCCA._check_params`: `None` maps to
`n_views` copies of the default (`0` for `c` and `l1_ratio`, `False` for
`positive`), a scalar broadcasts to `n_views` copies, a sequence of length
exactly `n_views` is left intact, a sequence of any other length fails with a
`ConfigurationError`, and on success each attribute has length exactly
`n_views`. -/
theorem elasticCheckParams_spec (n : ℕ) :
    elasticCheckParams .none .none .none n =
      .ok (List.replicate n 0, List.replicate n 0, List.replicate n false) ∧
    (∀ (a b : ℝ) (p : Bool),
      elasticCheckParams (.scalar a) (.scalar b) (.scalar p) n =
        .ok (List.replicate n a, List.replicate n b, List.replicate n p)) ∧
    (∀ (lc lb : List ℝ) (lp : List Bool),
      lc.length = n → lb.length = n → lp.length = n →
      elasticCheckParams (.seq lc) (.seq lb) (.seq lp) n = .ok (lc, lb, lp)) ∧
    (∀ (lc : List ℝ) (l1In : ParamInput ℝ) (posIn : ParamInput Bool),
      lc.length ≠ n →
      elasticCheckParams (.seq lc) l1In posIn n =
        .error (.configurationError "c")) ∧
    (∀ (a : ℝ) (lb : List ℝ) (posIn : ParamInput Bool),
      lb.length ≠ n →
      elasticCheckParams (.scalar a) (.seq lb) posIn n =
        .error (.configurationError "l1_ratio")) ∧
    (∀ (a b : ℝ) (lp : List Bool),
      lp.length ≠ n →
      elasticCheckParams (.scalar a) (.scalar b) (.seq lp) n =
        .error (.configurationError "positive")) ∧
    (∀ (cIn l1In : ParamInput ℝ) (posIn : ParamInput Bool)
        (cs l1rs : List ℝ) (poss : List Bool),
      elasticCheckParams cIn l1In posIn n = .ok (cs, l1rs, poss) →
      cs.length = n ∧ l1rs.length = n ∧ poss.length = n) := by
  refine ⟨rfl, fun a b p => rfl, ?_, ?_, ?_, ?_, ?_⟩
  · intro lc lb lp hc hb hp
    simp [elasticCheckParams, processParameter, hc, hb, hp, exceptBind_ok,
      exceptMap_ok]
  · intro lc l1In posIn hc
    simp [elasticCheckParams, processParameter, hc, exceptBind_error]
  · intro a lb posIn hb
    simp [elasticCheckParams, processParameter, hb, exceptBind_ok,
      exceptBind_error]
  · intro a b lp hp
    simp [elasticCheckParams, processParameter, hp, exceptBind_ok,
      exceptMap_error]
  · intro cIn l1In posIn cs l1rs poss h
    have hlen : ∀ {α : Type} (name : String) (v : ParamInput α) (d : α)
        (res : List α), processParameter name v d n = .ok res →
        res.length = n := by
      intro α name v d res hv
      cases v with
      | none => cases hv; simp
      | scalar a => cases hv; simp
      | seq l =>
        by_cases hl : l.length = n
        · simp [processParameter, hl] at hv; rw [← hv]; exact hl
        · simp [processParameter, hl] at hv
    rcases hok : processParameter "c" cIn (0:ℝ) n with _ | cs'
    · simp [elasticCheckParams, hok, exceptBind_error] at h
    rcases hok2 : processParameter "l1_ratio" l1In (0:ℝ) n with _ | l1rs'
    · simp [elasticCheckParams, hok, hok2, exceptBind_ok, exceptBind_error] at h
    rcases hok3 : processParameter "positive" posIn false n with _ | poss'
    · simp [elasticCheckParams, hok, hok2, hok3, exceptBind_ok,
        exceptMap_error] at h
    have h4 : cs' = cs ∧ l1rs' = l1rs ∧ poss' = poss := by
      simp [elasticCheckParams, hok, hok2, hok3, exceptBind_ok,
        exceptMap_ok] at h
      exact ⟨h.1, h.2.1, h.2.2⟩
    rcases h4 with ⟨e1, e2, e3⟩
    subst e1; subst e2; subst e3
    exact ⟨hlen _ cIn _ _ hok, hlen _ l1In _ _ hok2, hlen _ posIn _ _ hok3⟩

/-- Witness for C7 at concrete inputs with `n_views = 3`: a length-2 sequence
for `c` fails with the configuration error, the scalar 5 broadcasts. -/
theorem elasticCheckParams_spec_witness :
    elasticCheckParams (ParamInput.seq [(1:ℝ), 2]) .none .none 3 =
      .error (.configurationError "c") ∧
    elasticCheckParams (ParamInput.scalar (5:ℝ)) (ParamInput.scalar (0:ℝ))
        (ParamInput.scalar false) 3 =
      .ok (List.replicate 3 5, List.replicate 3 0, List.replicate 3 false) := by
  have h := elasticCheckParams_spec 3
  exact ⟨h.2.2.2.1 [1, 2] .none .none (by norm_num), h.2.1 5 0 false⟩

/-- C6 fails on the code: with `c = 1` and `l1_ratio = 1` the effective L2
coefficient `c*(1-l1_ratio)` is exactly 0, yet `initialize_regressors` (with
`stochastic=False`) builds `ElasticNet(alpha=1, l1_ratio=1)` for that view,
not the ridge fallback with regularization `tol`: the code branches on
`alpha == 0`, not on the L2 coefficient. -/
theorem initializeRegressors_l2_counterexample :
    ((1:ℝ) * (1 - 1) = 0) ∧
    initializeRegressors [1] [1] [false] false (1/10) =
      [Regressor.elasticNet 1 1 false] ∧
    initializeRegressors [1] [1] [false] false (1/10) ≠
      [Regressor.ridge (1/10) false] := by
  have he : initializeRegressors [1] [1] [false] false (1/10) =
      [Regressor.elasticNet 1 1 false] := by
    norm_num [initializeRegressors, List.zipWith3, mkRegressor]
  exact ⟨by norm_num, he, by rw [he]; simp⟩

/-- C6 amended: in `initialize_regressors` with `stochastic=False`, the view
`i` estimator is the plain (optionally non-negative) ridge solver with
regularization exactly `tol` if and only if `c[i]` (the ElasticNet alpha) is
exactly 0 — not when the effective L2 coefficient `c*(1-l1_ratio)` is 0; any
view with `c[i] ≠ 0` gets `ElasticNet(alpha=c[i], l1_ratio=l1_ratio[i])`. -/
theorem initializeRegressors_batch_spec (tol : ℝ) :
    ∀ (cs l1rs : List ℝ) (poss : List Bool) (i : ℕ),
      i < cs.length → i < l1rs.length → i < poss.length →
      (initializeRegressors cs l1rs poss false tol).getD i (.ridge tol false) =
        if cs.getD i 0 = 0 then .ridge tol (poss.getD i false)
        else .elasticNet (cs.getD i 0) (l1rs.getD i 0) (poss.getD i false) := by
  intro cs
  induction cs with
  | nil => intro l1rs poss i hi _ _; simp at hi
  | cons a as ih =>
    intro l1rs poss i hi hi2 hi3
    cases l1rs with
    | nil => simp at hi2
    | cons b bs =>
      cases poss with
      | nil => simp at hi3
      | cons p ps =>
        cases i with
        | zero =>
          simp only [initializeRegressors, List.zipWith3, List.getD_cons_zero,
            mkRegressor, Bool.false_eq_true, if_false]
        | succ j =>
          simp only [initializeRegressors, List.zipWith3, List.getD_cons_succ]
          exact ih bs ps j (Nat.lt_of_succ_lt_succ hi)
            (Nat.lt_of_succ_lt_succ hi2) (Nat.lt_of_succ_lt_succ hi3)

/-- Witness for the amended C6 at concrete inputs: `c = [0, 1/2]` gives the
ridge fallback for view 0 and an elastic net for view 1. -/
theorem initializeRegressors_batch_spec_witness :
    (initializeRegressors [0, 1/2] [1, 1/4] [true, false] false
        (1/10)).getD 0 (.ridge (1/10) false) = .ridge (1/10) true ∧
    (initializeRegressors [0, 1/2] [1, 1/4] [true, false] false
        (1/10)).getD 1 (.ridge (1/10) false) =
      .elasticNet (1/2) (1/4) false := by
  have h0 := initializeRegressors_batch_spec (1/10) [0, 1/2] [1, 1/4]
    [true, false] 0 (by norm_num) (by norm_num) (by norm_num)
  have h1 := initializeRegressors_batch_spec (1/10) [0, 1/2] [1, 1/4]
    [true, false] 1 (by norm_num) (by norm_num) (by norm_num)
  rw [h0, h1]
  norm_num

lemma processParameter_error_name {α : Type} (name : String) (v : ParamInput α)
    (d : α) (n : ℕ) (e : Err) (h : processParameter name v d n = .error e) :
    e = .configurationError name := by
  cases v with
  | none => cases h
  | scalar a => cases h
  | seq l =>
    by_cases hl : l.length = n
    · simp [processParameter, hl] at h
    · simp [processParameter, hl] at h
      exact h.symm

lemma processParameter_ok_name {α : Type} (n1 n2 : String) (v : ParamInput α)
    (d : α) (n : ℕ) (res : List α) (h : processParameter n1 v d n = .ok res) :
    processParameter n2 v d n = .ok res := by
  cases v with
  | none => exact h
  | scalar a => exact h
  | seq l =>
    by_cases hl : l.length = n
    · simpa [processParameter, hl] using h
    · simp [processParameter, hl] at h

/-- C9: fitting SCCA_Span with a number of views other than 2 fails during
parameter checking with the configuration error "SCCA_Span requires only 2
views" (raised as `ValueError` in the code, the spec's `ConfigurationError`
taxon), whatever the numeric stage would compute — no SVD or trial is
consulted; with exactly 2 views the view-count check passes (parameter
checking never produces that error). -/
theorem span_requires_two_views {β : Type} (nViews : ℕ) (reg : String)
    (cIn : ParamInput ℝ) (posIn : ParamInput Bool)
    (numeric : Option (List ℝ) × List Bool → β) (h : nViews ≠ 2) :
    spanFitPipeline nViews reg cIn posIn numeric =
      .error (.configurationError "SCCA_Span requires only 2 views") ∧
    ∀ (reg2 : String) (cIn2 : ParamInput ℝ) (posIn2 : ParamInput Bool),
      spanCheckParams 2 reg2 cIn2 posIn2 ≠
        .error (.configurationError "SCCA_Span requires only 2 views") := by
  constructor
  · simp [spanFitPipeline, spanCheckParams, h, exceptBind_error]
  · intro reg2 cIn2 posIn2 hbad
    have h2 : ¬ ((2:ℕ) ≠ 2) := by norm_num
    rw [spanCheckParams, if_neg h2] at hbad
    rcases hc : (if reg2 = "l0" ∨ reg2 = "l1" then
        (Option.some <$> processParameter "c" cIn2 0 2)
      else pure Option.none) with e | cs
    · have he : e = .configurationError "c" := by
        by_cases hreg : reg2 = "l0" ∨ reg2 = "l1"
        · rw [if_pos hreg] at hc
          rcases hp : processParameter "c" cIn2 (0:ℝ) 2 with e' | res
          · rw [hp, exceptMap_error] at hc
            cases hc
            exact processParameter_error_name _ _ _ _ _ hp
          · rw [hp, exceptMap_ok] at hc
            cases hc
        · rw [if_neg hreg] at hc
          cases hc
      rw [hc, exceptBind_error] at hbad
      cases hbad
      simp at he
    · rw [hc, exceptBind_ok] at hbad
      rcases hp : processParameter "positive" posIn2 false 2 with e2 | poss
      · rw [hp, exceptBind_error] at hbad
        cases hbad
        have := processParameter_error_name _ _ _ _ _ hp
        simp at this
      · rw [hp, exceptBind_ok] at hbad
        cases hbad

/-- Witness for C9 at a concrete input: 3 views fail with the configuration
error regardless of the numeric stage; 2 views pass the view-count check. -/
theorem span_requires_two_views_witness :
    spanFitPipeline 3 "l0" (ParamInput.scalar (2:ℝ)) .none (fun p => p) =
      .error (.configurationError "SCCA_Span requires only 2 views") ∧
    spanCheckParams 2 "l0" (ParamInput.scalar (2:ℝ)) .none ≠
      .error (.configurationError "SCCA_Span requires only 2 views") := by
  have h := span_requires_two_views 3 "l0" (ParamInput.scalar (2:ℝ)) .none
    (fun p => p) (by norm_num)
  exact ⟨h.1, h.2 "l0" (ParamInput.scalar (2:ℝ)) .none⟩

/-- C8: for every shared configuration, `SCCA_IPLS` with `tau = t` builds
exactly the fit engine of `ElasticCCA` with `c = t` and `l1_ratio = 1`:
identical per-view estimators, the same MAXVAR/SUMCOR flag, and the same `c`
and `l1_ratio` lists consumed by `_update` and `_objective` — hence the two
models perform identical update steps and fit identical weights. -/
theorem ipls_refines_elastic (tauIn : ParamInput ℝ) (posIn : ParamInput Bool)
    (maxvar stochastic : Bool) (tol : ℝ) (n : ℕ) (e : FitEngine)
    (h : iplsEngine tauIn posIn maxvar stochastic tol n = .ok e) :
    elasticEngine tauIn (.scalar 1) posIn maxvar stochastic tol n = .ok e := by
  rcases ht : processParameter "tau" tauIn (0:ℝ) n with e0 | taus
  · rw [iplsEngine, iplsCheckParams, ht] at h
    simp [exceptBind_error] at h
  · have hc : processParameter "c" tauIn (0:ℝ) n = .ok taus :=
      processParameter_ok_name "tau" "c" tauIn 0 n taus ht
    rcases hp : processParameter "positive" posIn false n with e1 | poss
    · rw [iplsEngine, iplsCheckParams, ht, hp] at h
      simp [processParameter, exceptBind_ok, exceptBind_error] at h
    · rw [iplsEngine, iplsCheckParams, ht, hp] at h
      simp only [processParameter, exceptBind_ok, exceptMap_ok,
        exceptBind_error, exceptMap_error] at h
      rw [elasticEngine, elasticCheckParams, hc, hp]
      simp only [processParameter, exceptBind_ok, exceptMap_ok]
      exact h

/-- Witness for C8 at a concrete input: `tau = 1/2` scalar, no positivity, 2
views, SUMCOR, batch solvers. -/
theorem ipls_refines_elastic_witness :
    iplsEngine (ParamInput.scalar (1/2)) .none false false (1/10) 2 =
      .ok ⟨[Regressor.elasticNet (1/2) 1 false, Regressor.elasticNet (1/2) 1 false],
           false, [1/2, 1/2], [1, 1]⟩ ∧
    elasticEngine (ParamInput.scalar (1/2)) (.scalar 1) .none false false
        (1/10) 2 =
      .ok ⟨[Regressor.elasticNet (1/2) 1 false, Regressor.elasticNet (1/2) 1 false],
           false, [1/2, 1/2], [1, 1]⟩ := by
  have h1 : iplsEngine (ParamInput.scalar (1/2)) .none false false (1/10) 2 =
      .ok ⟨[Regressor.elasticNet (1/2) 1 false, Regressor.elasticNet (1/2) 1 false],
           false, [1/2, 1/2], [1, 1]⟩ := by
    norm_num [iplsEngine, iplsCheckParams, processParameter, elasticInitEff,
      initializeRegressors, List.zipWith3, mkRegressor, List.replicate,
      exceptBind_ok, exceptMap_ok]
  exact ⟨h1, ipls_refines_elastic (ParamInput.scalar (1/2)) .none false false
    (1/10) 2 _ h1⟩

/-- One trial is a conditional update on the incumbent comparison. -/
lemma spanIteration_cases (update : Vec → ℝ → Vec) (c0 c1 : ℝ) (P : Mat)
    (D : Vec) (Q : Mat) (X0 X1 : Mat) (rnd : Vec) (st : SpanState) :
    spanIteration update c0 c1 P D Q X0 X1 rnd st =
      if spanTrialObj update c0 c1 P D Q rnd > st.maxObj then
        ⟨spanTrialObj update c0 c1 P D Q rnd,
         spanU update c0 P D rnd,
         spanV update c0 c1 P D Q rnd,
         matVec X0 (spanU update c0 P D rnd),
         matVec X1 (spanV update c0 c1 P D Q rnd)⟩
      else st := rfl

/-- Objective of one span trial never lowers the incumbent. -/
lemma spanIteration_maxObj_le (update : Vec → ℝ → Vec) (c0 c1 : ℝ) (P : Mat)
    (D : Vec) (Q : Mat) (X0 X1 : Mat) (rnd : Vec) (st : SpanState) :
    st.maxObj ≤ (spanIteration update c0 c1 P D Q X0 X1 rnd st).maxObj := by
  rw [spanIteration_cases]
  split
  · exact le_of_lt (by assumption)
  · exact le_refl _

lemma spanFold_maxObj_le (update : Vec → ℝ → Vec) (c0 c1 : ℝ) (P : Mat)
    (D : Vec) (Q : Mat) (X0 X1 : Mat) (draws : ℕ → Vec) :
    ∀ (l : List ℕ) (st : SpanState),
      st.maxObj ≤
        (l.foldl (fun s t => spanIteration update c0 c1 P D Q X0 X1 (draws t) s)
          st).maxObj := by
  intro l
  induction l with
  | nil => intro st; exact le_refl _
  | cons t ts ih =>
    intro st
    exact le_trans (spanIteration_maxObj_le update c0 c1 P D Q X0 X1 (draws t) st)
      (ih _)

/-- C5: across the `max_iter` randomized trials of one SCCA_Span latent
dimension the incumbent objective `max_obj` is non-decreasing: it starts at 0,
a single trial either leaves the whole state unchanged or strictly raises the
incumbent (it is modified only when the trial objective strictly exceeds it),
and the loop of `spanRun` runs for exactly `max_iter` trials with no early
convergence exit (so the incumbent after `j ≤ k` trials never exceeds the
incumbent after `k`). -/
theorem span_maxObj_monotone (update : Vec → ℝ → Vec) (c0 c1 : ℝ) (P : Mat)
    (D : Vec) (Q : Mat) (X0 X1 : Mat) (draws : ℕ → Vec) (w0 w1 s0 s1 : Vec) :
    (spanInitState w0 w1 s0 s1).maxObj = 0 ∧
    (∀ (st : SpanState) (rnd : Vec),
      spanIteration update c0 c1 P D Q X0 X1 rnd st = st ∨
      st.maxObj < (spanIteration update c0 c1 P D Q X0 X1 rnd st).maxObj) ∧
    (∀ (st : SpanState) (j k : ℕ), j ≤ k →
      (spanRun update c0 c1 P D Q X0 X1 draws j st).maxObj ≤
        (spanRun update c0 c1 P D Q X0 X1 draws k st).maxObj) := by
  refine ⟨rfl, ?_, ?_⟩
  · intro st rnd
    rw [spanIteration_cases]
    by_cases hgt : spanTrialObj update c0 c1 P D Q rnd > st.maxObj
    · right
      rw [if_pos hgt]
      exact hgt
    · left
      rw [if_neg hgt]
  · intro st j k hjk
    unfold spanRun
    obtain ⟨m, rfl⟩ := Nat.exists_eq_add_of_le hjk
    rw [List.range_add, List.foldl_append]
    exact spanFold_maxObj_le update c0 c1 P D Q X0 X1 draws _ _

/-- Witness for C5 at a concrete input: the identity threshold function, rank
1, all SVD factors and views the 1x1 identity, constant draws. -/
theorem span_maxObj_monotone_witness :
    (spanInitState [1] [1] [1] [1]).maxObj = 0 ∧
    (spanRun (fun a _ => a) 1 1 [[1]] [1] [[1]] [[1]] [[1]] (fun _ => [1]) 1
        (spanInitState [1] [1] [1] [1])).maxObj ≤
      (spanRun (fun a _ => a) 1 1 [[1]] [1] [[1]] [[1]] [[1]] (fun _ => [1]) 2
        (spanInitState [1] [1] [1] [1])).maxObj := by
  have h := span_maxObj_monotone (fun a _ => a) 1 1 [[1]] [1] [[1]] [[1]] [[1]]
    (fun _ => [1]) [1] [1] [1] [1]
  exact ⟨h.1, h.2.2 (spanInitState [1] [1] [1] [1]) 1 2 (by norm_num)⟩

lemma foldl_obj_const (f : ℕ → Vec → ℝ) :
    ∀ (l : List ℕ) (t : Vec) (acc : ℝ),
      (l.foldl (fun (p : Vec × ℝ) i => (p.1, p.2 + f i p.1)) (t, acc)).2 =
        acc + (l.map (fun i => f i t)).sum := by
  intro l
  induction l with
  | nil => intro t acc; simp
  | cons i ts ih =>
    intro t acc
    simp only [List.foldl_cons, List.map_cons, List.sum_cons]
    rw [ih]
    ring

lemma foldl_obj_rescale (n : ℕ) (f : ℕ → Vec → ℝ) :
    ∀ (l : List ℕ) (t : Vec) (acc : ℝ),
      (l.foldl (fun (p : Vec × ℝ) i =>
          (rescaleToSqrtN n p.1, p.2 + f i (rescaleToSqrtN n p.1))) (t, acc)).2 =
        acc + (l.map (fun i => f i (rescaleToSqrtN n t))).sum := by
  intro l
  induction l with
  | nil => intro t acc; simp
  | cons i ts ih =>
    intro t acc
    simp only [List.foldl_cons, List.map_cons, List.sum_cons]
    rw [ih, rescale_idem]
    ring

/-- C1 amended: the objective evaluator returns
`Σ_i [ ‖views[i] @ weights[i] − target‖² / (2n) + c_i·l1_ratio_i·‖w_i‖₁ +
c_i·(1−l1_ratio_i)·‖w_i‖₂ ]` where `target` is the **same for every view**: in
MAXVAR mode the mean of the current scores rescaled to norm `sqrt n`, and in
SUMCOR mode the **plain (unrescaled) mean of the scores** — not the previous
view's score `scores[i-1]` used by the update step. -/
theorem elasticObjective_eq_amended (maxvar : Bool) (n : ℕ) (cs l1rs : List ℝ)
    (views : List Mat) (weights scores : List Vec) :
    elasticObjective maxvar n cs l1rs views weights scores =
      amendedC1Objective maxvar n cs l1rs views weights scores := by
  cases maxvar with
  | false =>
    unfold elasticObjective amendedC1Objective
    simp only [Bool.false_eq_true, if_false]
    rw [foldl_obj_const (fun i t => objTerm n cs l1rs views weights i t)]
    simp
  | true =>
    unfold elasticObjective amendedC1Objective
    simp only [if_true]
    rw [foldl_obj_rescale n (fun i t => objTerm n cs l1rs views weights i t)]
    simp

/-- C1 fails on the code in SUMCOR mode: with views `[[1]], [[1]]`, weights
`[0], [2]`, scores `[0], [2]` (consistent: `scores[i] = views[i] @
weights[i]`), one sample and zero regularization, `_objective` returns 1 —
it uses the plain mean of the scores as the target for every view — while the
claimed formula with SUMCOR target `scores[i-1]` gives 4. -/
theorem elasticObjective_counterexample :
    (matVec [[1]] [0] = [(0:ℝ)] ∧ matVec [[1]] [2] = [(2:ℝ)]) ∧
    elasticObjective false 1 [0, 0] [0, 0] [[[1]], [[1]]] [[0], [2]]
      [[0], [2]] = 1 ∧
    claimC1Objective false 1 [0, 0] [0, 0] [[[1]], [[1]]] [[0], [2]]
      [[0], [2]] = 4 ∧
    elasticObjective false 1 [0, 0] [0, 0] [[[1]], [[1]]] [[0], [2]]
      [[0], [2]] ≠
      claimC1Objective false 1 [0, 0] [0, 0] [[[1]], [[1]]] [[0], [2]]
      [[0], [2]] := by
  have h1 : elasticObjective false 1 [0, 0] [0, 0] [[[1]], [[1]]] [[0], [2]]
      [[0], [2]] = 1 := by
    norm_num [elasticObjective, objTerm, meanVec, vsum, vadd, smulV,
      matVec, dot, vsub, sq_norm2, sumSq, norm1, List.range_succ]
  have h2 : claimC1Objective false 1 [0, 0] [0, 0] [[[1]], [[1]]] [[0], [2]]
      [[0], [2]] = 4 := by
    norm_num [claimC1Objective, objTerm, sumcorTarget, matVec, dot, vsub,
      sq_norm2, sumSq, norm1, List.range_succ]
  refine ⟨⟨by norm_num [matVec, dot], by norm_num [matVec, dot]⟩, h1, h2, ?_⟩
  rw [h1, h2]
  norm_num

lemma elasticUpdateStep_degenerate (n : ℕ) (solver : ℕ → Mat → Vec → Vec)
    (views : List Mat) (st : UpdateState) (i : ℕ)
    (hzero : sumSq (solver i (views.getD i [])
      (sumcorTarget st.scores i)) = 0) :
    elasticUpdateStep false n solver views st i =
      .error (.degenerateWeights i) := by
  simp only [elasticUpdateStep, checkConvergedWeights, Bool.false_eq_true,
    if_false]
  rw [if_pos hzero]

lemma elasticUpdateStep_sumcor_ok (n : ℕ) (solver : ℕ → Mat → Vec → Vec)
    (views : List Mat) (st : UpdateState) (i : ℕ)
    (hnz : sumSq (solver i (views.getD i [])
      (sumcorTarget st.scores i)) ≠ 0) :
    elasticUpdateStep false n solver views st i =
      .ok ⟨st.scores.set i (matVec (views.getD i [])
             (smulV (Real.sqrt n / norm2 (matVec (views.getD i [])
                 (solver i (views.getD i []) (sumcorTarget st.scores i))))
               (solver i (views.getD i []) (sumcorTarget st.scores i)))),
           st.weights.set i
             (smulV (Real.sqrt n / norm2 (matVec (views.getD i [])
                 (solver i (views.getD i []) (sumcorTarget st.scores i))))
               (solver i (views.getD i []) (sumcorTarget st.scores i)))⟩ := by
  simp only [elasticUpdateStep, checkConvergedWeights, Bool.false_eq_true,
    if_false]
  rw [if_neg hnz]

/-- C2 amended: the degenerate-weights check runs in SUMCOR mode only
(`maxvar=False`): if the sweep has successfully processed views `0..i-1` and
the sub-solver returns an all-zero weight vector for view `i`, the whole
update sweep fails with `DegenerateWeightsError` naming view `i` (in MAXVAR
mode no check is performed; see the counterexample). -/
theorem sumcor_degenerate_raises (n : ℕ) (solver : ℕ → Mat → Vec → Vec)
    (views : List Mat) (st st1 : UpdateState) (i : ℕ)
    (hi : i < views.length)
    (hpre : List.foldlM (elasticUpdateStep false n solver views) st
      (List.range i) = .ok st1)
    (hzero : sumSq (solver i (views.getD i [])
      (sumcorTarget st1.scores i)) = 0) :
    elasticSweep false n solver views st = .error (.degenerateWeights i) := by
  unfold elasticSweep
  have hL : views.length = i + (1 + (views.length - i - 1)) := by omega
  rw [hL, List.range_add, List.foldlM_append, hpre, exceptBind_ok,
    List.range_add, List.map_append, List.foldlM_append]
  have h0 : List.map (fun x => i + x) (List.range 1) = [i] := by
    rw [show List.range 1 = [0] from rfl, List.map_singleton, Nat.add_zero]
  rw [h0, List.foldlM_cons,
    elasticUpdateStep_degenerate n solver views st1 i hzero, exceptBind_error,
    exceptBind_error]

/-- Witness for the amended C2 at a concrete input: a sub-solver that returns
the zero vector makes the first SUMCOR step fail, naming view 0. -/
theorem sumcor_degenerate_raises_witness :
    elasticSweep false 1 (fun _ _ _ => [0]) [[[1]], [[1]]]
      ⟨[[1], [1]], [[1], [1]]⟩ = .error (.degenerateWeights 0) := by
  exact sumcor_degenerate_raises 1 (fun _ _ _ => [0]) [[[1]], [[1]]]
    ⟨[[1], [1]], [[1], [1]]⟩ ⟨[[1], [1]], [[1], [1]]⟩ 0 (by norm_num) rfl
    (by show sumSq [(0:ℝ)] = 0; norm_num [sumSq])

/-- C2 fails on the code in MAXVAR mode: the same all-zero sub-solver output
raises nothing — the sweep completes normally (no `DegenerateWeightsError`,
no division by the weight norm), leaving zero weights and zero scores. -/
theorem maxvar_no_degenerate_check :
    elasticSweep true 1 (fun _ _ _ => [0]) [[[1]], [[1]]]
      ⟨[[1], [1]], [[1], [1]]⟩ =
      .ok ⟨[[0], [0]], [[0], [0]]⟩ ∧
    elasticSweep true 1 (fun _ _ _ => [0]) [[[1]], [[1]]]
      ⟨[[1], [1]], [[1], [1]]⟩ ≠ .error (.degenerateWeights 0) ∧
    elasticSweep true 1 (fun _ _ _ => [0]) [[[1]], [[1]]]
      ⟨[[1], [1]], [[1], [1]]⟩ ≠ .error (.degenerateWeights 1) := by
  have he : elasticSweep true 1 (fun _ _ _ => [0]) [[[1]], [[1]]]
      ⟨[[1], [1]], [[1], [1]]⟩ = .ok ⟨[[0], [0]], [[0], [0]]⟩ := by
    norm_num [elasticSweep, elasticUpdateStep, List.range_succ, matVec, dot,
      List.foldlM_cons, List.foldlM_nil, exceptBind_ok]
  exact ⟨he, by rw [he]; simp, by rw [he]; simp⟩

lemma getD_set_self {α : Type} (l : List α) (i : ℕ) (v d : α)
    (h : i < l.length) : (l.set i v).getD i d = v := by
  rw [List.getD_eq_getElem?_getD, List.getElem?_set_self h]
  rfl

lemma getD_set_ne {α : Type} (l : List α) (i j : ℕ) (v d : α) (h : i ≠ j) :
    (l.set i v).getD j d = l.getD j d := by
  rw [List.getD_eq_getElem?_getD, List.getElem?_set_ne h,
    ← List.getD_eq_getElem?_getD]

/-- After the SUMCOR rescaling, the recomputed score has sum of squares `n`. -/
lemma sumSq_rescaled_score (n : ℕ) (X : Mat) (w : Vec)
    (h : sumSq (matVec X w) ≠ 0) :
    sumSq (matVec X (smulV (Real.sqrt n / norm2 (matVec X w)) w)) = n := by
  rw [matVec_smulV, sumSq_smulV, div_pow, Real.sq_sqrt (Nat.cast_nonneg n),
    sq_norm2, div_mul_cancel₀ _ h]

lemma sumcor_sweep_aux (n : ℕ) (solver : ℕ → Mat → Vec → Vec)
    (views : List Mat)
    (hsol : ∀ i, i < views.length → ∀ t,
      sumSq (matVec (views.getD i []) (solver i (views.getD i []) t)) ≠ 0) :
    ∀ (l : List ℕ) (st st' : UpdateState),
      l.Nodup → (∀ j ∈ l, j < views.length) →
      st.scores.length = views.length → st.weights.length = views.length →
      List.foldlM (elasticUpdateStep false n solver views) st l = .ok st' →
      st'.scores.length = views.length ∧
      st'.weights.length = views.length ∧
      (∀ i ∈ l,
        st'.scores.getD i [] =
          matVec (views.getD i []) (st'.weights.getD i []) ∧
        sumSq (st'.scores.getD i []) = n) ∧
      (∀ i, i ∉ l → st'.scores.getD i [] = st.scores.getD i [] ∧
        st'.weights.getD i [] = st.weights.getD i []) := by
  intro l
  induction l with
  | nil =>
    intro st st' _ _ h1 h2 hfold
    rw [List.foldlM_nil] at hfold
    cases hfold
    exact ⟨h1, h2, by simp, fun i _ => ⟨rfl, rfl⟩⟩
  | cons i ts ih =>
    intro st st' hnd hbound h1 h2 hfold
    rw [List.foldlM_cons] at hfold
    have hi : i < views.length := hbound i (List.mem_cons_self i ts)
    by_cases hw : sumSq (solver i (views.getD i [])
        (sumcorTarget st.scores i)) = 0
    · rw [elasticUpdateStep_degenerate n solver views st i hw,
        exceptBind_error] at hfold
      cases hfold
    · rw [elasticUpdateStep_sumcor_ok n solver views st i hw,
        exceptBind_ok] at hfold
      obtain ⟨hnotm, hndts⟩ := List.nodup_cons.mp hnd
      have hlen1 : (st.scores.set i (matVec (views.getD i [])
          (smulV (Real.sqrt n / norm2 (matVec (views.getD i [])
              (solver i (views.getD i []) (sumcorTarget st.scores i))))
            (solver i (views.getD i [])
              (sumcorTarget st.scores i))))).length = views.length := by
        rw [List.length_set]; exact h1
      have hlen2 : (st.weights.set i
          (smulV (Real.sqrt n / norm2 (matVec (views.getD i [])
              (solver i (views.getD i []) (sumcorTarget st.scores i))))
            (solver i (views.getD i [])
              (sumcorTarget st.scores i)))).length = views.length := by
        rw [List.length_set]; exact h2
      obtain ⟨g1, g2, g3, g4⟩ := ih _ st' hndts
        (fun j hj => hbound j (List.mem_cons_of_mem i hj)) hlen1 hlen2 hfold
      refine ⟨g1, g2, ?_, ?_⟩
      · intro i' hi'
        rcases List.mem_cons.mp hi' with rfl | hits
        · have hpres := g4 i' hnotm
          rw [hpres.1, hpres.2]
          constructor
          · rw [getD_set_self _ _ _ _ (by rw [h1]; exact hi),
              getD_set_self _ _ _ _ (by rw [h2]; exact hi)]
          · rw [getD_set_self _ _ _ _ (by rw [h1]; exact hi)]
            exact sumSq_rescaled_score n (views.getD i' []) _ (hsol i' hi _)
        · exact g3 i' hits
      · intro j hj
        have hjne : j ≠ i := fun e => hj (e ▸ List.mem_cons_self i ts)
        have hjts : j ∉ ts := fun e => hj (List.mem_cons_of_mem i e)
        have hpres := g4 j hjts
        rw [hpres.1, hpres.2, getD_set_ne _ _ _ _ _ (Ne.symm hjne),
          getD_set_ne _ _ _ _ _ (Ne.symm hjne)]
        exact ⟨rfl, rfl⟩

/-- C3: in SUMCOR mode (`maxvar=False`), every view's target is the previous
view's score in round-robin order (embedded in `elasticUpdateStep` as
`sumcorTarget`), and after the sub-solver returns, the weight vector is
rescaled so that the recomputed score `views[i] @ weights[i]` has squared
Euclidean norm exactly `n` (equivalently `weights[i].T @ views[i].T @
views[i] @ weights[i] == n`); at the end of a successful sweep this
unit-empirical-variance property holds for every view's score, and every
stored score equals `views[i] @ weights[i]`.  (Hypothesis: no sub-solver
output projects to the zero vector, so the rescaling divisor is nonzero.) -/
theorem sumcor_unit_variance (n : ℕ) (solver : ℕ → Mat → Vec → Vec)
    (views : List Mat) (st st' : UpdateState)
    (hsol : ∀ i, i < views.length → ∀ t,
      sumSq (matVec (views.getD i []) (solver i (views.getD i []) t)) ≠ 0)
    (hs : st.scores.length = views.length)
    (hw : st.weights.length = views.length)
    (hok : elasticSweep false n solver views st = .ok st') :
    ∀ i, i < views.length →
      st'.scores.getD i [] = matVec (views.getD i []) (st'.weights.getD i []) ∧
      sumSq (st'.scores.getD i []) = n := by
  have h := sumcor_sweep_aux n solver views hsol (List.range views.length)
    st st' (List.nodup_range _) (fun j hj => List.mem_range.mp hj) hs hw hok
  intro i hi
  exact h.2.2.1 i (List.mem_range.mpr hi)

/-- Witness for C3 at a concrete input: two 1x1 views, the constant sub-solver
returning `[1]`, one sample. -/
theorem sumcor_unit_variance_witness :
    elasticSweep false 1 (fun _ _ _ => [1]) [[[1]], [[1]]]
      ⟨[[1], [1]], [[1], [1]]⟩ = .ok ⟨[[1], [1]], [[1], [1]]⟩ ∧
    sumSq (((⟨[[1], [1]], [[1], [1]]⟩ : UpdateState)).scores.getD 0 []) = 1 := by
  have hok : elasticSweep false 1 (fun _ _ _ => [1]) [[[1]], [[1]]]
      ⟨[[1], [1]], [[1], [1]]⟩ = .ok ⟨[[1], [1]], [[1], [1]]⟩ := by
    norm_num [elasticSweep, elasticUpdateStep, checkConvergedWeights,
      sumcorTarget, matVec, dot, smulV, sumSq, norm2, List.range_succ,
      List.foldlM_cons, List.foldlM_nil, exceptBind_ok, Real.sqrt_one]
  have h := sumcor_unit_variance 1 (fun _ _ _ => [1]) [[[1]], [[1]]]
    ⟨[[1], [1]], [[1], [1]]⟩ ⟨[[1], [1]], [[1], [1]]⟩
    (by
      intro i hi t
      have hi2 : i < 2 := by simpa using hi
      interval_cases i <;> norm_num [matVec, dot, sumSq])
    (by norm_num) (by norm_num) hok
  refine ⟨hok, ?_⟩
  exact_mod_cast (h 0 (by norm_num)).2

end

end CCAZoo
